import Mathlib

set_option allowUnsafeReducibility true

attribute [local semireducible] Rat.add Rat.mul Rat.inv Rat.sub Rat.div Rat.ofScientific

/-!
Verification of the keyword-variant generation and ranking pipeline
(scripts/knowledge/keyword_variants.py).

The program's floating-point arithmetic is modelled over the rationals, and
Python machine integers over Int.  External collaborators (the sklearn TF-IDF
vectorizers and the database client) are modelled as parameters: the cosine
similarity arrays produced by sklearn are passed as explicit rational lists,
and the persistence layer is modelled by the record list the code builds
before handing it to the database client.
-/

namespace KeywordVariants

/-- A row of the semrush_keywords reference table (the similarity corpus). -/
structure RefKeyword where
  keyword : String
  search_volume : Int
  cpc : ℚ
  keyword_difficulty : ℚ
  competition : ℚ
deriving DecidableEq

/-- The metrics dictionary stored on a similar-keyword entry. -/
structure SimMetrics where
  search_volume : Int
  cpc : ℚ
  keyword_difficulty : ℚ
  competition : ℚ
deriving DecidableEq

/-- One entry of the similar-keyword list returned by the similarity index.
The metrics dictionary can be absent or empty, which Python treats as falsy;
that case is modelled by none. -/
structure SimilarKeyword where
  keyword : String
  similarity : ℚ
  metrics : Option SimMetrics
deriving DecidableEq

/-- The estimated-metrics dictionary returned by the metric estimator. -/
structure EstimatedMetrics where
  search_volume : Int
  cpc : ℚ
  keyword_difficulty : ℚ
  competition_percentage : ℚ
  confidence_score : ℚ
deriving DecidableEq

/-- The KeywordVariant pydantic model of the source. -/
structure KeywordVariant where
  keyword : String
  source : String
  search_volume : Int := 0
  cpc : ℚ := 0
  keyword_difficulty : ℚ := 0
  competition_percentage : ℚ := 0
  efficiency_index : ℚ := 0
  confidence_score : ℚ := 0
  similar_keywords : List SimilarKeyword := []
  explanation : String := ""
  image_url : Option String := none
deriving DecidableEq

/-! ### Python string primitives used by the pipeline -/

/-- Python str.lower on the ASCII keyword strings handled by the pipeline. -/
def pyLower (s : String) : String :=
  String.mk (s.data.map Char.toLower)

/-- Python int() applied to a real number: truncation toward zero.  Stated
via Nat division on the numerator and denominator of the reduced fraction. -/
def pyTrunc (q : ℚ) : Int :=
  if 0 ≤ q then Int.ofNat (q.num.toNat / q.den)
  else -(Int.ofNat ((-q).num.toNat / (-q).den))

/-- Whether the character list needle is an initial segment of hay. -/
def charsLead : List Char → List Char → Bool
  | [], _ => true
  | _ :: _, [] => false
  | a :: as, b :: bs => a == b && charsLead as bs

/-- Whether needle occurs as a contiguous run inside hay: the Python
substring test (needle in hay). -/
def charsHave (needle : List Char) : List Char → Bool
  | [] => charsLead needle []
  | b :: bs => charsLead needle (b :: bs) || charsHave needle bs

/-- Helper for wordCount: counts maximal non-whitespace runs. -/
def wordCountAux : List Char → Bool → Nat
  | [], _ => 0
  | c :: cs, inWord =>
    if c.isWhitespace then wordCountAux cs false
    else (if inWord then 0 else 1) + wordCountAux cs true

/-- Python len(s.split()): the number of whitespace-separated words. -/
def wordCount (s : String) : Nat :=
  wordCountAux s.data false

/-- The interrogative tokens tested by the source. -/
def interrogatives : List String :=
  ["how", "what", "why", "when", "where", "which"]

/-- The source's question test: any(q in keyword.lower() for q in [...]).
Note this is substring containment, not a test of the leading word. -/
def isQuestionKw (keyword : String) : Bool :=
  interrogatives.any (fun q => charsHave q.data (pyLower keyword).data)

/-- The source's brand test: "nike" in keyword.lower(). -/
def hasBrandTok (keyword : String) : Bool :=
  charsHave "nike".data (pyLower keyword).data

/-! ### Similarity Index (_find_similar_keywords, _initialize_keyword_similarity)

The source builds keyword_data_map as a dict comprehension keyed by the stored
keyword string, so a later corpus row with the same keyword overwrites an
earlier one, and lookup compares the lowercased query against the stored key
verbatim.  The sklearn cosine-similarity arrays over the corpus are passed in
as explicit rational lists charSims and wordSims. -/

/-- The external TfidfVectorizer collaborator: sklearn's fit_transform raises
an empty-vocabulary ValueError when the document list yields no vocabulary,
in particular on an empty corpus; the fitted vectors themselves are opaque
here (only success or failure matters to the claims), so a successful fit
carries just the documents. -/
def fitTransform (docs : List String) : Except String (List String) :=
  if docs.isEmpty then Except.error "empty vocabulary"
  else Except.ok docs

/-- The source's _initialize_keyword_similarity: builds the keyword data map,
then fits the char-gram and the word-gram vectorizer over the corpus
keywords; its except block logs and re-raises, so a vectorizer error
propagates to the caller (and on through the constructor).  On success the
similarity-model state is the corpus with its lookup map, carried here as the
corpus itself. -/
def initializeKeywordSimilarity (corpus : List RefKeyword) :
    Except String (List RefKeyword) :=
  match fitTransform (corpus.map (·.keyword)) with
  | Except.error e => Except.error e
  | Except.ok _ =>
      match fitTransform (corpus.map (·.keyword)) with
      | Except.error e => Except.error e
      | Except.ok _ => Except.ok corpus

/-- Lookup in the dict built by the comprehension over the corpus rows:
the last row with the given keyword wins. -/
def dataMapFind (corpus : List RefKeyword) (k : String) : Option RefKeyword :=
  (corpus.filter (fun item => item.keyword == k)).getLast?

/-- A placeholder row used only for out-of-range indexing, which never occurs
when the similarity arrays have the corpus length. -/
def defaultRef : RefKeyword :=
  { keyword := "", search_volume := 0, cpc := 0, keyword_difficulty := 0, competition := 0 }

/-- numpy argsort: indices of the list sorted by ascending value, ties kept
in ascending index order (argsort is stable). -/
def argsortAsc (v : List ℚ) : List Nat :=
  (List.range v.length).insertionSort
    (fun i j => v.getD i 0 < v.getD j 0 ∨ (v.getD i 0 = v.getD j 0 ∧ i ≤ j))

/-- The source's _find_similar_keywords.  An exact hit of the lowercased query
in the keyword data map short-circuits with similarity 1.0; otherwise the
char-gram and word-gram cosines are blended 0.4/0.6, the top top_n indices are
taken (argsort, last top_n, reversed), and entries are kept only above the
0.3 threshold. -/
def findSimilarKeywords (corpus : List RefKeyword) (charSims wordSims : List ℚ)
    (keyword : String) (top_n : Nat := 5) : List SimilarKeyword :=
  match dataMapFind corpus (pyLower keyword) with
  | some exact_match =>
      [{ keyword := pyLower keyword, similarity := 1,
         metrics := some { search_volume := exact_match.search_volume,
                           cpc := exact_match.cpc,
                           keyword_difficulty := exact_match.keyword_difficulty,
                           competition := exact_match.competition } }]
  | none =>
      let combined := List.zipWith (fun c w => c * 0.4 + w * 0.6) charSims wordSims
      let top_indices := ((argsortAsc combined).drop (combined.length - top_n)).reverse
      top_indices.filterMap (fun idx =>
        let similarity_score := combined.getD idx 0
        if 0.3 < similarity_score then
          let keyword_data := corpus.getD idx defaultRef
          some { keyword := keyword_data.keyword, similarity := similarity_score,
                 metrics := some { search_volume := keyword_data.search_volume,
                                   cpc := keyword_data.cpc,
                                   keyword_difficulty := keyword_data.keyword_difficulty,
                                   competition := keyword_data.competition } }
        else none)

/-! ### Metric Estimator (_estimate_metrics) -/

/-- The source's _estimate_metrics: defaults on an empty neighbor list,
otherwise averages over the neighbors with non-falsy metrics dicts, applies
the long-tail, question and brand adjustments in that order, and clamps. -/
def estimateMetrics (keyword : String) (similar_keywords : List SimilarKeyword) :
    EstimatedMetrics :=
  if similar_keywords.isEmpty then
    { search_volume := 100, cpc := 1.0, keyword_difficulty := 50,
      competition_percentage := 0.5, confidence_score := 0.2 }
  else
    let valid := similar_keywords.filterMap (·.metrics)
    let num_valid_metrics := valid.length
    let search_volume : Int := (valid.map (·.search_volume)).sum
    let cpc : ℚ := (valid.map (·.cpc)).sum
    let keyword_difficulty : ℚ := (valid.map (·.keyword_difficulty)).sum
    let competition : ℚ := (valid.map (·.competition)).sum
    let base : Int × ℚ × ℚ × ℚ × ℚ :=
      if 0 < num_valid_metrics then
        (pyTrunc ((search_volume : ℚ) / (num_valid_metrics : ℚ)),
         cpc / (num_valid_metrics : ℚ),
         keyword_difficulty / (num_valid_metrics : ℚ),
         competition / (num_valid_metrics : ℚ),
         min 0.9 (0.3 + 0.1 * (num_valid_metrics : ℚ)))
      else (100, 1.0, 50, 0.5, 0.3)
    let (sv0, cpc0, kd0, comp0, conf0) := base
    let sv1 : Int := if 3 < wordCount keyword then pyTrunc ((sv0 : ℚ) * 0.8) else sv0
    let comp1 : ℚ := if 3 < wordCount keyword then comp0 * 0.7 else comp0
    let sv2 : Int := if isQuestionKw keyword then pyTrunc ((sv1 : ℚ) * 0.9) else sv1
    let cpc1 : ℚ := if isQuestionKw keyword then cpc0 * 0.9 else cpc0
    let sv3 : Int := if hasBrandTok keyword then pyTrunc ((sv2 : ℚ) * 1.2) else sv2
    let comp2 : ℚ := if hasBrandTok keyword then comp1 * 1.1 else comp1
    { search_volume := max 0 sv3,
      cpc := max 0 cpc1,
      keyword_difficulty := max 0 (min 100 kd0),
      competition_percentage := max 0 (min 1 comp2),
      confidence_score := conf0 }

/-! ### Enrichment (_enrich_keywords)

The char-gram and word-gram similarity arrays depend on the query keyword,
so they enter as functions from the keyword to the per-corpus-row lists. -/

/-- The source's _enrich_keywords: one KeywordVariant per input keyword, in
input order, holding the estimated metrics and the neighbor list. -/
def enrichKeywords (corpus : List RefKeyword) (charSimsOf wordSimsOf : String → List ℚ)
    (source : String) (image_url : Option String) (keywords : List String) :
    List KeywordVariant :=
  keywords.map (fun keyword =>
    let similar_keywords := findSimilarKeywords corpus (charSimsOf keyword) (wordSimsOf keyword) keyword
    let metrics := estimateMetrics keyword similar_keywords
    { keyword := keyword, source := source,
      search_volume := metrics.search_volume,
      cpc := metrics.cpc,
      keyword_difficulty := metrics.keyword_difficulty,
      competition_percentage := metrics.competition_percentage,
      similar_keywords := similar_keywords,
      confidence_score := metrics.confidence_score,
      image_url := image_url })

/-! ### Composite Scorer (_calculate_composite_metrics) -/

/-- Python max over the non-empty generator of search volumes. -/
def batchMaxVolume : List KeywordVariant → Int
  | [] => 0
  | k :: ks => (ks.map (·.search_volume)).foldl max k.search_volume

/-- Python max over the non-empty generator of cpc values. -/
def batchMaxCpc : List KeywordVariant → ℚ
  | [] => 0
  | k :: ks => (ks.map (·.cpc)).foldl max k.cpc

/-- The source's _calculate_composite_metrics: on an empty batch return [],
otherwise normalize volume and cpc by the batch maxima (with the Python
falsy-max guard: max or 1), combine the four scores with weights
0.4 / 0.25 / 0.25 / 0.1, damp by the confidence factor and clamp to [0,1]. -/
def calculateCompositeMetrics (keywords : List KeywordVariant) : List KeywordVariant :=
  if keywords.isEmpty then []
  else
    let max_volume : Int := if batchMaxVolume keywords = 0 then 1 else batchMaxVolume keywords
    let max_cpc : ℚ := if batchMaxCpc keywords = 0 then 1 else batchMaxCpc keywords
    keywords.map (fun keyword =>
      let volume_score := min 1 ((keyword.search_volume : ℚ) / (max_volume : ℚ))
      let cpc_score := min 1 (keyword.cpc / max_cpc)
      let difficulty_inverse := 1 - keyword.keyword_difficulty / 100
      let competition_inverse := 1 - keyword.competition_percentage
      let efficiency := volume_score * 0.4 + difficulty_inverse * 0.25 +
        competition_inverse * 0.25 + cpc_score * 0.1
      let confidence_factor := 0.5 + 0.5 * keyword.confidence_score
      { keyword with efficiency_index := max 0 (min 1 (efficiency * confidence_factor)) })

/-! ### Diversified Selector (_rank_and_prioritize) -/

/-- Descending order on efficiency_index, the sort key of the source. -/
def effGe (a b : KeywordVariant) : Prop :=
  b.efficiency_index ≤ a.efficiency_index

instance : DecidableRel effGe :=
  fun a b => inferInstanceAs (Decidable (b.efficiency_index ≤ a.efficiency_index))

instance : IsTotal KeywordVariant effGe :=
  ⟨fun a b => le_total b.efficiency_index a.efficiency_index⟩

instance : IsTrans KeywordVariant effGe :=
  ⟨fun _ _ _ h1 h2 => le_trans h2 h1⟩

/-- Python list.sort(key=efficiency_index, reverse=True): a stable descending
sort, modelled by stable insertion sort. -/
def sortByEff (l : List KeywordVariant) : List KeywordVariant :=
  l.insertionSort effGe

/-- Segment tests in the source's first-match-wins order: question first,
then by word count. -/
def isQuestionVariant (kw : KeywordVariant) : Bool :=
  isQuestionKw kw.keyword

def isShortTail (kw : KeywordVariant) : Bool :=
  !isQuestionVariant kw && decide (wordCount kw.keyword ≤ 2)

def isMediumTail (kw : KeywordVariant) : Bool :=
  !isQuestionVariant kw && !decide (wordCount kw.keyword ≤ 2) && decide (wordCount kw.keyword ≤ 4)

def isLongTail (kw : KeywordVariant) : Bool :=
  !isQuestionVariant kw && !decide (wordCount kw.keyword ≤ 2) && !decide (wordCount kw.keyword ≤ 4)

/-- The short-tail segment: filtered from the globally ranked list, then
sorted again per the source. -/
def shortTailOf (keywords : List KeywordVariant) : List KeywordVariant :=
  sortByEff ((sortByEff keywords).filter isShortTail)

def mediumTailOf (keywords : List KeywordVariant) : List KeywordVariant :=
  sortByEff ((sortByEff keywords).filter isMediumTail)

def longTailOf (keywords : List KeywordVariant) : List KeywordVariant :=
  sortByEff ((sortByEff keywords).filter isLongTail)

def questionBasedOf (keywords : List KeywordVariant) : List KeywordVariant :=
  sortByEff ((sortByEff keywords).filter isQuestionVariant)

/-- Number of keywords taken by the per-segment quotas 3/5/2/2. -/
def topCountOf (keywords : List KeywordVariant) : Nat :=
  ((shortTailOf keywords).take 3).length + ((mediumTailOf keywords).take 5).length +
    ((longTailOf keywords).take 2).length + ((questionBasedOf keywords).take 2).length

/-- The leftover candidates beyond each segment's quota, globally re-sorted
by efficiency (the source's remaining list). -/
def remainingOf (keywords : List KeywordVariant) : List KeywordVariant :=
  sortByEff ((shortTailOf keywords).drop 3 ++ (mediumTailOf keywords).drop 5 ++
    (longTailOf keywords).drop 2 ++ (questionBasedOf keywords).drop 2)

/-- The combined selection before the final sort: the four quota prefixes,
extended when the quotas undershoot 12 by the top of the leftover pool. -/
def diverseTopOf (keywords : List KeywordVariant) : List KeywordVariant :=
  if topCountOf keywords < 12 then
    (shortTailOf keywords).take 3 ++ (mediumTailOf keywords).take 5 ++
      (longTailOf keywords).take 2 ++ (questionBasedOf keywords).take 2 ++
      (remainingOf keywords).take (12 - topCountOf keywords)
  else
    (shortTailOf keywords).take 3 ++ (mediumTailOf keywords).take 5 ++
      (longTailOf keywords).take 2 ++ (questionBasedOf keywords).take 2

/-- The source's _rank_and_prioritize with its hard-coded target of 12. -/
def rankAndPrioritize (keywords : List KeywordVariant) : List KeywordVariant :=
  if keywords.isEmpty then []
  else
    (sortByEff (diverseTopOf keywords)).take
      (min 12 (sortByEff (diverseTopOf keywords)).length)

/-! ### Persistence (save_to_database)

The database client itself is external; what is modelled is the record list
the source builds and hands to it, with the uuid4 draws for missing variant
ids supplied as an explicit list. -/

/-- The hard-coded fallback user id of the source. -/
def test_user_id : String := "97d82337-5d25-4258-b47f-5be8ea53114c"

def isHexChar (c : Char) : Bool :=
  c.isDigit || ('a' ≤ c && c ≤ 'f') || ('A' ≤ c && c ≤ 'F')

/-- Consume exactly n hex digits, returning the rest of the input. -/
def hexRun : Nat → List Char → Option (List Char)
  | 0, cs => some cs
  | _ + 1, [] => none
  | n + 1, c :: cs => if isHexChar c then hexRun n cs else none

/-- Consume one dash. -/
def dashRun : List Char → Option (List Char)
  | '-' :: cs => some cs
  | _ => none

/-- Python re.match against the anchored case-insensitive UUID pattern
8-4-4-4-12; a Python dollar anchor also accepts one trailing newline. -/
def uuidMatch (s : String) : Bool :=
  match (((((((hexRun 8 s.data).bind dashRun).bind (hexRun 4)).bind dashRun).bind
      (hexRun 4)).bind dashRun).bind (hexRun 4)).bind dashRun |>.bind (hexRun 12) with
  | some rest => rest == [] || rest == ['\n']
  | none => false

/-- One row of the variant_records list built by save_to_database. -/
structure VariantRecord where
  user_id : String
  variant_id : String
  keyword : String
  source : String
  search_volume : Int
  cpc : ℚ
  keyword_difficulty : ℚ
  competition_percentage : ℚ
  efficiency_index : ℚ
  confidence_score : ℚ
  explanation : String
  image_url : Option String
  geo_target : String
deriving DecidableEq

/-- The record list save_to_database builds before the insert call.  The
KeywordVariant model has no variant_id field, so getattr always yields None
and a fresh uuid4 string (from freshIds) is used for every record. -/
def saveRecords (variants : List KeywordVariant) (freshIds : List String)
    (user_id : String) : List VariantRecord :=
  let db_user_id := if user_id ≠ "" ∧ uuidMatch user_id then user_id else test_user_id
  (variants.zip freshIds).map (fun vf =>
    { user_id := db_user_id, variant_id := vf.2, keyword := vf.1.keyword,
      source := vf.1.source, search_volume := vf.1.search_volume, cpc := vf.1.cpc,
      keyword_difficulty := vf.1.keyword_difficulty,
      competition_percentage := vf.1.competition_percentage,
      efficiency_index := vf.1.efficiency_index,
      confidence_score := vf.1.confidence_score,
      explanation := vf.1.explanation, image_url := vf.1.image_url,
      geo_target := "US" })

/-! ### Spec-side formulas, written from the specification's wording -/

/-- The efficiency-index formula as the specification states it: volume and
cpc normalized by the batch maximum with divisor 1 when that maximum is 0,
weighted 0.4 / 0.25 / 0.25 / 0.1, damped by the confidence factor and clamped
to the unit interval. -/
def claimEfficiencyIndex (maxVol : Int) (maxCpc : ℚ) (kw : KeywordVariant) : ℚ :=
  let vs := (kw.search_volume : ℚ) / (if maxVol = 0 then 1 else (maxVol : ℚ))
  let cs := kw.cpc / (if maxCpc = 0 then 1 else maxCpc)
  max 0 (min 1 ((0.4 * vs + 0.25 * (1 - kw.keyword_difficulty / 100) +
    0.25 * (1 - kw.competition_percentage) + 0.1 * cs) * (0.5 + 0.5 * kw.confidence_score)))

/-- The claim's reading of adjustment rule (b): the keyword starts with an
interrogative word. -/
def startsWithInterrogative (keyword : String) : Bool :=
  interrogatives.any (fun q => charsLead q.data (pyLower keyword).data)

/-- The metric-adjustment pipeline as the (amended) specification states it:
average the neighbors' metrics, apply rule (a) long-tail, then rule (b)
interrogative, then rule (c) brand, then clamp every output to its range. -/
def claimEstimate (keyword : String) (ms : List SimMetrics) : EstimatedMetrics :=
  let n := ms.length
  let vol0 : Int := pyTrunc ((((ms.map (·.search_volume)).sum : Int) : ℚ) / (n : ℚ))
  let cpc0 : ℚ := (ms.map (·.cpc)).sum / (n : ℚ)
  let kd0 : ℚ := (ms.map (·.keyword_difficulty)).sum / (n : ℚ)
  let comp0 : ℚ := (ms.map (·.competition)).sum / (n : ℚ)
  let conf : ℚ := min 0.9 (0.3 + 0.1 * (n : ℚ))
  let vol1 : Int := if 3 < wordCount keyword then pyTrunc ((vol0 : ℚ) * 0.8) else vol0
  let comp1 : ℚ := if 3 < wordCount keyword then comp0 * 0.7 else comp0
  let vol2 : Int := if isQuestionKw keyword then pyTrunc ((vol1 : ℚ) * 0.9) else vol1
  let cpc1 : ℚ := if isQuestionKw keyword then cpc0 * 0.9 else cpc0
  let vol3 : Int := if hasBrandTok keyword then pyTrunc ((vol2 : ℚ) * 1.2) else vol2
  let comp2 : ℚ := if hasBrandTok keyword then comp1 * 1.1 else comp1
  { search_volume := max 0 vol3, cpc := max 0 cpc1,
    keyword_difficulty := max 0 (min 100 kd0),
    competition_percentage := max 0 (min 1 comp2),
    confidence_score := conf }

/-! ### Helper lemmas -/

lemma le_foldl_max {α : Type} [LinearOrder α] (l : List α) (a : α) :
    a ≤ l.foldl max a := by
  induction l generalizing a with
  | nil => exact le_refl a
  | cons b l ih => exact le_trans (le_max_left a b) (ih (max a b))

lemma mem_le_foldl_max {α : Type} [LinearOrder α] {x : α} {l : List α} (a : α)
    (hx : x ∈ l) : x ≤ l.foldl max a := by
  induction l generalizing a with
  | nil => cases hx
  | cons b l ih =>
    rcases List.mem_cons.mp hx with rfl | h
    · exact le_trans (le_max_right a x) (le_foldl_max l (max a x))
    · exact ih (max a b) h

lemma clamp01_nonneg (x : ℚ) : 0 ≤ max 0 (min 1 x) :=
  le_max_left 0 (min 1 x)

lemma clamp01_le_one (x : ℚ) : max 0 (min 1 x) ≤ 1 :=
  max_le (by norm_num) (min_le_left 1 x)

/-! ### Theorems -/

/-- C3: for every candidate keyword whose neighbor list is empty, the metric
estimator returns exactly the fixed default tuple search_volume = 100,
cpc = 1.0, keyword_difficulty = 50, competition = 0.5, confidence = 0.2. -/
theorem estimate_metrics_defaults_on_empty (keyword : String) :
    estimateMetrics keyword [] =
      { search_volume := 100, cpc := 1.0, keyword_difficulty := 50,
        competition_percentage := 0.5, confidence_score := 0.2 } :=
  rfl

/-- C8 counterexample: on an empty reference corpus the similarity-index
initialization does not return normally at all: the vectorizer's
empty-vocabulary error is re-raised, so no empty-list query result ever
arises from an empty corpus. -/
theorem empty_corpus_raises_counterexample :
    initializeKeywordSimilarity [] ≠ Except.ok []
    ∧ initializeKeywordSimilarity [] = Except.error "empty vocabulary" :=
  ⟨fun h => Except.noConfusion h, rfl⟩

/-- C8 (amended): on an empty reference corpus the similarity-index
initialization propagates the vectorizer's empty-vocabulary error instead of
producing an index (the re-raise of its except block), so an empty corpus is
never queried; on an empty candidate batch the composite scorer returns the
empty list rather than raising. -/
theorem empty_corpus_init_raises_and_empty_batch :
    initializeKeywordSimilarity [] = Except.error "empty vocabulary"
    ∧ calculateCompositeMetrics [] = [] :=
  ⟨rfl, rfl⟩

/-- C9: enrichment returns one variant per input keyword in input order: the
list of keyword fields of the output equals the input list, so lengths agree
and the i-th output keyword is the i-th input string. -/
theorem enrich_keywords_preserves_order (corpus : List RefKeyword)
    (charSimsOf wordSimsOf : String → List ℚ) (source : String)
    (image_url : Option String) (keywords : List String) :
    (enrichKeywords corpus charSimsOf wordSimsOf source image_url keywords).map
      (·.keyword) = keywords := by
  induction keywords with
  | nil => rfl
  | cons k ks ih =>
    simp only [enrichKeywords, List.map_cons] at ih ⊢
    exact congrArg (k :: ·) ih

/-- C1: on every non-empty batch with valid metrics (non-negative volumes and
cpc), the composite scorer sets each keyword's efficiency_index to exactly
the specification's clamped weighted formula, and every resulting
efficiency_index lies in the unit interval. -/
theorem composite_scorer_formula (keywords : List KeywordVariant)
    (hne : keywords ≠ [])
    (hvalid : ∀ k ∈ keywords, 0 ≤ k.search_volume ∧ 0 ≤ k.cpc) :
    (calculateCompositeMetrics keywords).map (·.efficiency_index) =
      keywords.map (claimEfficiencyIndex (batchMaxVolume keywords) (batchMaxCpc keywords))
    ∧ ∀ out ∈ calculateCompositeMetrics keywords,
        0 ≤ out.efficiency_index ∧ out.efficiency_index ≤ 1 := by
  obtain ⟨k, ks, rfl⟩ := List.exists_cons_of_ne_nil hne
  have hvol : ∀ kw ∈ k :: ks, kw.search_volume ≤ batchMaxVolume (k :: ks) := by
    intro kw hkw
    rcases List.mem_cons.mp hkw with rfl | h
    · exact le_foldl_max _ _
    · exact mem_le_foldl_max _ (List.mem_map_of_mem (·.search_volume) h)
  have hcpc : ∀ kw ∈ k :: ks, kw.cpc ≤ batchMaxCpc (k :: ks) := by
    intro kw hkw
    rcases List.mem_cons.mp hkw with rfl | h
    · exact le_foldl_max _ _
    · exact mem_le_foldl_max _ (List.mem_map_of_mem (·.cpc) h)
  have hvmin : ∀ kw ∈ k :: ks,
      min 1 ((kw.search_volume : ℚ) /
        ((if batchMaxVolume (k :: ks) = 0 then 1 else batchMaxVolume (k :: ks) : Int) : ℚ)) =
      (kw.search_volume : ℚ) /
        ((if batchMaxVolume (k :: ks) = 0 then 1 else batchMaxVolume (k :: ks) : Int) : ℚ) := by
    intro kw hkw
    by_cases h0 : batchMaxVolume (k :: ks) = 0
    · have h1 : kw.search_volume = 0 :=
        le_antisymm (h0 ▸ hvol kw hkw) ((hvalid kw hkw).1)
      simp [h0, h1]
    · have hpos : (0 : Int) < batchMaxVolume (k :: ks) :=
        lt_of_le_of_ne (le_trans (hvalid k (List.mem_cons_self k ks)).1
          (hvol k (List.mem_cons_self k ks))) (Ne.symm h0)
    -- the score is at most one, so the Python min-guard is inactive
      have : (kw.search_volume : ℚ) / (batchMaxVolume (k :: ks) : ℚ) ≤ 1 := by
        rw [div_le_one (by exact_mod_cast hpos)]
        exact_mod_cast hvol kw hkw
      simp [h0, min_eq_right this]
  have hcmin : ∀ kw ∈ k :: ks,
      min 1 (kw.cpc / (if batchMaxCpc (k :: ks) = 0 then 1 else batchMaxCpc (k :: ks))) =
      kw.cpc / (if batchMaxCpc (k :: ks) = 0 then 1 else batchMaxCpc (k :: ks)) := by
    intro kw hkw
    by_cases h0 : batchMaxCpc (k :: ks) = 0
    · have h1 : kw.cpc = 0 := le_antisymm (h0 ▸ hcpc kw hkw) ((hvalid kw hkw).2)
      simp [h0, h1]
    · have hpos : (0 : ℚ) < batchMaxCpc (k :: ks) :=
        lt_of_le_of_ne (le_trans (hvalid k (List.mem_cons_self k ks)).2
          (hcpc k (List.mem_cons_self k ks))) (Ne.symm h0)
      have : kw.cpc / batchMaxCpc (k :: ks) ≤ 1 := by
        rw [div_le_one hpos]
        exact hcpc kw hkw
      simp [h0, min_eq_right this]
  constructor
  · rw [calculateCompositeMetrics]
    simp only [List.isEmpty_cons, Bool.false_eq_true, if_false, List.map_map]
    refine List.map_congr_left (fun kw hkw => ?_)
    simp only [Function.comp]
    rw [claimEfficiencyIndex]
    rw [hvmin kw hkw, hcmin kw hkw]
    rw [apply_ite (fun z : Int => (z : ℚ))]
    simp only [Int.cast_one]
    ring_nf
  · intro out hout
    rw [calculateCompositeMetrics] at hout
    simp only [List.isEmpty_cons, Bool.false_eq_true, if_false, List.mem_map] at hout
    obtain ⟨kw, _, rfl⟩ := hout
    exact ⟨clamp01_nonneg _, clamp01_le_one _⟩

/-- A sample enriched keyword used by concrete witnesses. -/
def kvSample : KeywordVariant :=
  { keyword := "running shoes", source := "generated", search_volume := 100,
    cpc := 2, keyword_difficulty := 40, competition_percentage := 0.5,
    confidence_score := 0.5 }

/-- C1 witness: the scorer formula theorem applied to a concrete singleton
batch with valid metrics. -/
theorem composite_scorer_formula_witness :
    ([kvSample] ≠ ([] : List KeywordVariant))
    ∧ ((calculateCompositeMetrics [kvSample]).map (·.efficiency_index) =
        [kvSample].map (claimEfficiencyIndex (batchMaxVolume [kvSample]) (batchMaxCpc [kvSample]))
      ∧ ∀ out ∈ calculateCompositeMetrics [kvSample],
          0 ≤ out.efficiency_index ∧ out.efficiency_index ≤ 1) :=
  ⟨by decide, composite_scorer_formula [kvSample] (by decide) (by decide)⟩

/-- The adjustment pipeline exactly as claim C4 words it, with rule (b)
keyed on the keyword starting with an interrogative.  Used only to exhibit
where that wording diverges from the source. -/
def claimEstimateStated (keyword : String) (ms : List SimMetrics) : EstimatedMetrics :=
  let n := ms.length
  let vol0 : Int := pyTrunc ((((ms.map (·.search_volume)).sum : Int) : ℚ) / (n : ℚ))
  let cpc0 : ℚ := (ms.map (·.cpc)).sum / (n : ℚ)
  let kd0 : ℚ := (ms.map (·.keyword_difficulty)).sum / (n : ℚ)
  let comp0 : ℚ := (ms.map (·.competition)).sum / (n : ℚ)
  let conf : ℚ := min 0.9 (0.3 + 0.1 * (n : ℚ))
  let vol1 : Int := if 3 < wordCount keyword then pyTrunc ((vol0 : ℚ) * 0.8) else vol0
  let comp1 : ℚ := if 3 < wordCount keyword then comp0 * 0.7 else comp0
  let vol2 : Int := if startsWithInterrogative keyword then pyTrunc ((vol1 : ℚ) * 0.9) else vol1
  let cpc1 : ℚ := if startsWithInterrogative keyword then cpc0 * 0.9 else cpc0
  let vol3 : Int := if hasBrandTok keyword then pyTrunc ((vol2 : ℚ) * 1.2) else vol2
  let comp2 : ℚ := if hasBrandTok keyword then comp1 * 1.1 else comp1
  { search_volume := max 0 vol3, cpc := max 0 cpc1,
    keyword_difficulty := max 0 (min 100 kd0),
    competition_percentage := max 0 (min 1 comp2),
    confidence_score := conf }

/-- A neighbor with base volume 1000, shared by the estimator scenarios. -/
def simNb1000 : SimilarKeyword :=
  { keyword := "similar", similarity := 0.5,
    metrics := some { search_volume := 1000, cpc := 2, keyword_difficulty := 50,
                      competition := 0.5 } }

/-- C4 counterexample: "shower curtain rod" starts with no interrogative, has
only 3 words and no brand token, so under the claim's stated rules the
neighbor-average volume 1000 would survive unchanged; the source instead
tests substring containment, finds the token how inside shower, and returns
900. -/
theorem question_rule_containment_counterexample :
    startsWithInterrogative "shower curtain rod" = false
    ∧ (claimEstimateStated "shower curtain rod"
        ([simNb1000].filterMap (·.metrics))).search_volume = 1000
    ∧ (estimateMetrics "shower curtain rod" [simNb1000]).search_volume = 900 := by
  decide

/-- C4 (amended): with at least one neighbor carrying a metrics dict, the
estimator equals the spec pipeline with rule (b) read as substring
containment of an interrogative: average, then (a) long-tail, then (b)
interrogative, then (c) brand, then clamp; and all outputs land in their
valid ranges. -/
theorem estimator_applies_rules_in_order (keyword : String)
    (sims : List SimilarKeyword) (hvalid : sims.filterMap (·.metrics) ≠ []) :
    estimateMetrics keyword sims = claimEstimate keyword (sims.filterMap (·.metrics))
    ∧ 0 ≤ (estimateMetrics keyword sims).search_volume
    ∧ 0 ≤ (estimateMetrics keyword sims).cpc
    ∧ 0 ≤ (estimateMetrics keyword sims).keyword_difficulty
    ∧ (estimateMetrics keyword sims).keyword_difficulty ≤ 100
    ∧ 0 ≤ (estimateMetrics keyword sims).competition_percentage
    ∧ (estimateMetrics keyword sims).competition_percentage ≤ 1
    ∧ 0 ≤ (estimateMetrics keyword sims).confidence_score
    ∧ (estimateMetrics keyword sims).confidence_score ≤ 1 := by
  have hne : sims ≠ [] := by
    rintro rfl
    exact hvalid rfl
  have hemp : sims.isEmpty = false := by
    cases sims with
    | nil => exact absurd rfl hne
    | cons a l => rfl
  have hlen : 0 < (sims.filterMap (·.metrics)).length := List.length_pos.mpr hvalid
  have heq : estimateMetrics keyword sims =
      claimEstimate keyword (sims.filterMap (·.metrics)) := by
    rw [estimateMetrics, claimEstimate]
    simp only [hemp, Bool.false_eq_true, if_false, if_pos hlen]
  refine ⟨heq, ?_⟩
  rw [heq, claimEstimate]
  have hn : (0 : ℚ) ≤ ((sims.filterMap (·.metrics)).length : ℚ) := by positivity
  refine ⟨le_max_left 0 _, le_max_left 0 _, le_max_left 0 _,
    max_le (by norm_num) (min_le_left _ _), le_max_left 0 _,
    max_le (by norm_num) (min_le_left _ _), ?_, ?_⟩
  · exact le_min (by norm_num) (by positivity)
  · exact le_trans (min_le_left _ _) (by norm_num)

/-- C4 witness: the amended rule-order theorem applied to the spec's own
scenario keyword "how to pick running shoes" with base volume 1000; the
clamped result after the long-tail and question adjustments is 720. -/
theorem estimator_applies_rules_in_order_witness :
    (estimateMetrics "how to pick running shoes" [simNb1000] =
      claimEstimate "how to pick running shoes" ([simNb1000].filterMap (·.metrics))
      ∧ 0 ≤ (estimateMetrics "how to pick running shoes" [simNb1000]).search_volume
      ∧ 0 ≤ (estimateMetrics "how to pick running shoes" [simNb1000]).cpc
      ∧ 0 ≤ (estimateMetrics "how to pick running shoes" [simNb1000]).keyword_difficulty
      ∧ (estimateMetrics "how to pick running shoes" [simNb1000]).keyword_difficulty ≤ 100
      ∧ 0 ≤ (estimateMetrics "how to pick running shoes" [simNb1000]).competition_percentage
      ∧ (estimateMetrics "how to pick running shoes" [simNb1000]).competition_percentage ≤ 1
      ∧ 0 ≤ (estimateMetrics "how to pick running shoes" [simNb1000]).confidence_score
      ∧ (estimateMetrics "how to pick running shoes" [simNb1000]).confidence_score ≤ 1)
    ∧ (estimateMetrics "how to pick running shoes" [simNb1000]).search_volume = 720 :=
  ⟨estimator_applies_rules_in_order "how to pick running shoes" [simNb1000]
    (by decide), by decide⟩

/-- C7 counterexample: enriching a keyword whose neighbor list is empty (here
over an empty corpus) yields confidence_score 0.2, not the claimed 0. -/
theorem confidence_floor_counterexample :
    (enrichKeywords [] (fun _ => []) (fun _ => []) "generated" none
      ["plasma lamp"]).map (·.confidence_score) = [0.2]
    ∧ (0.2 : ℚ) ≠ 0 := by
  decide

/-- C7 (amended): when no corpus entry exceeds the 0.3 combined-similarity
floor and the query has no exact map hit, the similarity index returns no
neighbors and the estimator's resulting confidence_score is the conservative
default 0.2 (not 0). -/
theorem confidence_default_when_no_neighbor (corpus : List RefKeyword)
    (charSims wordSims : List ℚ) (keyword : String)
    (hexact : dataMapFind corpus (pyLower keyword) = none)
    (hfloor : ∀ x ∈ List.zipWith (fun c w => c * 0.4 + w * 0.6) charSims wordSims,
      x ≤ 0.3) :
    findSimilarKeywords corpus charSims wordSims keyword 5 = []
    ∧ (estimateMetrics keyword
        (findSimilarKeywords corpus charSims wordSims keyword 5)).confidence_score
      = 0.2 := by
  have hnil : findSimilarKeywords corpus charSims wordSims keyword 5 = [] := by
    rw [findSimilarKeywords]
    rw [hexact]
    refine List.filterMap_eq_nil_iff.mpr (fun idx _ => ?_)
    set combined := List.zipWith (fun c w => c * 0.4 + w * 0.6) charSims wordSims with hc
    have hle : combined.getD idx 0 ≤ 0.3 := by
      rcases lt_or_le idx combined.length with h | h
      · rw [List.getD_eq_getElem?_getD, List.getElem?_eq_getElem h]
        exact hfloor _ (List.getElem_mem h)
      · rw [List.getD_eq_getElem?_getD, List.getElem?_eq_none h]
        norm_num
    simp only [not_lt.mpr hle, if_false]
  exact ⟨hnil, by rw [hnil]; rfl⟩

/-- A one-row corpus used by concrete witnesses. -/
def refAlpha : RefKeyword :=
  { keyword := "alpha", search_volume := 10, cpc := 1, keyword_difficulty := 10,
    competition := 0.1 }

/-- C7 witness: the amended no-neighbor confidence theorem at a concrete
corpus and query whose combined similarity stays below the floor. -/
theorem confidence_default_when_no_neighbor_witness :
    findSimilarKeywords [refAlpha] [0.1] [0.1] "zzz" 5 = []
    ∧ (estimateMetrics "zzz"
        (findSimilarKeywords [refAlpha] [0.1] [0.1] "zzz" 5)).confidence_score = 0.2 :=
  confidence_default_when_no_neighbor [refAlpha] [0.1] [0.1] "zzz" (by decide) (by decide)

/-- A two-row corpus whose first keyword is stored with capital letters. -/
def corpusC5 : List RefKeyword :=
  [{ keyword := "Running Shoes", search_volume := 5000, cpc := 1.2,
     keyword_difficulty := 40, competition := 0.5 },
   { keyword := "running shoes online", search_volume := 3000, cpc := 1,
     keyword_difficulty := 35, competition := 0.4 }]

/-- C5 counterexample: the query "running shoes" equals the stored corpus
keyword "Running Shoes" under case-insensitive comparison, yet the source
compares the lowercased query against the stored key verbatim, misses, and
falls through to the vector path, which here returns two results instead of
the claimed single similarity-1.0 entry. -/
theorem exact_match_case_counterexample :
    pyLower "running shoes" = pyLower "Running Shoes"
    ∧ (findSimilarKeywords corpusC5 [0.9, 0.8] [1, 0.9] "running shoes" 5).length = 2 := by
  decide

/-- C5 (amended): the short-circuit keys on the lowercased query hitting a
stored corpus keyword verbatim.  Whenever the lowercased query is among the
stored keywords the lookup succeeds, and whenever it succeeds the index
returns exactly one entry — keyed by the lowercased query, carrying the hit
row's stored metrics — with similarity exactly 1.0, whatever the corpus size
and similarity arrays. -/
theorem exact_match_short_circuit (corpus : List RefKeyword)
    (charSims wordSims : List ℚ) (keyword : String) (top_n : Nat) :
    (pyLower keyword ∈ corpus.map (·.keyword) →
      ∃ e, dataMapFind corpus (pyLower keyword) = some e ∧ e.keyword = pyLower keyword)
    ∧ ∀ e, dataMapFind corpus (pyLower keyword) = some e →
        findSimilarKeywords corpus charSims wordSims keyword top_n =
          [{ keyword := pyLower keyword, similarity := 1,
             metrics := some { search_volume := e.search_volume, cpc := e.cpc,
                               keyword_difficulty := e.keyword_difficulty,
                               competition := e.competition } }] := by
  constructor
  · intro hmem
    obtain ⟨e, hmem', hk⟩ := List.mem_map.mp hmem
    have hfil : e ∈ corpus.filter (fun item => item.keyword == pyLower keyword) :=
      List.mem_filter.mpr ⟨hmem', by simp [hk]⟩
    have hne : corpus.filter (fun item => item.keyword == pyLower keyword) ≠ [] :=
      List.ne_nil_of_mem hfil
    obtain ⟨x, hx⟩ := Option.isSome_iff_exists.mp
      (List.getLast?_isSome.mpr hne)
    refine ⟨x, hx, ?_⟩
    have hxmem := List.mem_of_mem_getLast? (Option.mem_def.mpr hx)
    exact (of_decide_eq_true (List.mem_filter.mp hxmem).2 : x.keyword = pyLower keyword)
  · intro e he
    rw [findSimilarKeywords, he]

/-- C5 witness: the amended short-circuit theorem at a concrete lowercase
corpus entry hit by an uppercase query, ignoring the similarity arrays. -/
theorem exact_match_short_circuit_witness :
    findSimilarKeywords [refAlpha] [0] [0] "ALPHA" 5 =
      [{ keyword := "alpha", similarity := 1,
         metrics := some { search_volume := refAlpha.search_volume, cpc := refAlpha.cpc,
                           keyword_difficulty := refAlpha.keyword_difficulty,
                           competition := refAlpha.competition } }] := by
  have h := (exact_match_short_circuit [refAlpha] [0] [0] "ALPHA" 5).2 refAlpha (by decide)
  rw [h]
  decide

/-- C6: with no exact map hit and cosine arrays of matching length with
entries in the unit interval, the index returns at most top_n results, every
returned similarity is the 0.4/0.6 blend of the two cosines at its corpus
index, lies in the unit interval, and exceeds the 0.3 floor (candidates at
or below the floor are excluded). -/
theorem similarity_blend_topk_floor (corpus : List RefKeyword)
    (charSims wordSims : List ℚ) (keyword : String) (top_n : Nat)
    (hlen : charSims.length = wordSims.length)
    (hchar : ∀ c ∈ charSims, 0 ≤ c ∧ c ≤ 1)
    (hword : ∀ w ∈ wordSims, 0 ≤ w ∧ w ≤ 1)
    (hexact : dataMapFind corpus (pyLower keyword) = none) :
    (findSimilarKeywords corpus charSims wordSims keyword top_n).length ≤ top_n
    ∧ ∀ r ∈ findSimilarKeywords corpus charSims wordSims keyword top_n,
        0.3 < r.similarity ∧ 0 ≤ r.similarity ∧ r.similarity ≤ 1
        ∧ ∃ i, i < charSims.length
            ∧ r.similarity = charSims.getD i 0 * 0.4 + wordSims.getD i 0 * 0.6 := by
  rw [findSimilarKeywords, hexact]
  set combined := List.zipWith (fun c w => c * 0.4 + w * 0.6) charSims wordSims with hc
  have hclen : combined.length = charSims.length := by
    rw [hc, List.length_zipWith, hlen, Nat.min_self]
  have hargl : (argsortAsc combined).length = combined.length := by
    rw [argsortAsc, (List.perm_insertionSort _ _).length_eq, List.length_range]
  constructor
  · calc (((argsortAsc combined).drop (combined.length - top_n)).reverse.filterMap _).length
        ≤ ((argsortAsc combined).drop (combined.length - top_n)).reverse.length :=
          List.length_filterMap_le _ _
      _ = (argsortAsc combined).length - (combined.length - top_n) := by
          rw [List.length_reverse, List.length_drop]
      _ ≤ top_n := by rw [hargl]; omega
  · intro r hr
    obtain ⟨idx, _, hsome⟩ := List.mem_filterMap.mp hr
    by_cases hcond : (0.3 : ℚ) < combined.getD idx 0
    · rw [if_pos hcond] at hsome
      have hsim : r.similarity = combined.getD idx 0 := by
        cases hsome
        rfl
      rcases lt_or_le idx combined.length with hlt | hge
      · have hmem : combined.getD idx 0 = combined[idx] := by
          rw [List.getD_eq_getElem?_getD, List.getElem?_eq_getElem hlt]
          rfl
        have hidx : idx < charSims.length := hclen ▸ hlt
        have hidx' : idx < wordSims.length := hlen ▸ hidx
        have hval : combined[idx] = charSims[idx] * 0.4 + wordSims[idx] * 0.6 := by
          simp [hc, List.getElem_zipWith]
        have hcb := hchar charSims[idx] (List.getElem_mem hidx)
        have hwb := hword wordSims[idx] (List.getElem_mem hidx')
        refine ⟨hsim ▸ hcond, ?_, ?_, idx, hidx, ?_⟩
        · rw [hsim, hmem, hval]
          nlinarith [hcb.1, hwb.1]
        · rw [hsim, hmem, hval]
          nlinarith [hcb.2, hwb.2]
        · rw [hsim, hmem, hval]
          rw [List.getD_eq_getElem?_getD, List.getElem?_eq_getElem hidx,
            List.getD_eq_getElem?_getD, List.getElem?_eq_getElem hidx']
          rfl
      · exfalso
        rw [List.getD_eq_getElem?_getD, List.getElem?_eq_none hge] at hcond
        norm_num at hcond
    · rw [if_neg hcond] at hsome
      cases hsome

/-- C6 witness: the top-K blend theorem at a one-row corpus and a query with
no exact hit whose blended similarity clears the floor. -/
theorem similarity_blend_topk_floor_witness :
    (findSimilarKeywords [refAlpha] [0.5] [0.6] "trail shoes" 5).length ≤ 5
    ∧ ∀ r ∈ findSimilarKeywords [refAlpha] [0.5] [0.6] "trail shoes" 5,
        0.3 < r.similarity ∧ 0 ≤ r.similarity ∧ r.similarity ≤ 1
        ∧ ∃ i, i < ([0.5] : List ℚ).length
            ∧ r.similarity = ([0.5] : List ℚ).getD i 0 * 0.4 + ([0.6] : List ℚ).getD i 0 * 0.6 :=
  similarity_blend_topk_floor [refAlpha] [0.5] [0.6] "trail shoes" 5
    (by decide) (by decide) (by decide) (by decide)

/-- C10: every record built by save_to_database carries the hard-coded
fallback user id when the given user_id fails the UUID pattern (the empty
string included, since it both fails the pattern and is falsy), and never the
given user_id itself; when the given user_id matches the pattern, every
record carries exactly it. -/
theorem save_records_user_id (variants : List KeywordVariant)
    (freshIds : List String) (user_id : String) :
    (uuidMatch user_id = false →
      ∀ r ∈ saveRecords variants freshIds user_id,
        r.user_id = test_user_id ∧ r.user_id ≠ user_id)
    ∧ (uuidMatch user_id = true →
      ∀ r ∈ saveRecords variants freshIds user_id, r.user_id = user_id) := by
  have hmem : ∀ r ∈ saveRecords variants freshIds user_id,
      r.user_id = (if user_id ≠ "" ∧ uuidMatch user_id then user_id else test_user_id) := by
    intro r hr
    rw [saveRecords] at hr
    obtain ⟨vf, _, rfl⟩ := List.mem_map.mp hr
    rfl
  have htest : uuidMatch test_user_id = true := by decide
  constructor
  · intro hfalse r hr
    have hcond : ¬ (user_id ≠ "" ∧ uuidMatch user_id) := by
      rintro ⟨-, hu⟩
      rw [hfalse] at hu
      cases hu
    rw [hmem r hr, if_neg hcond]
    refine ⟨rfl, fun heq => ?_⟩
    rw [heq] at htest
    rw [htest] at hfalse
    cases hfalse
  · intro htrue r hr
    have hne : user_id ≠ "" := by
      rintro rfl
      cases htrue
    rw [hmem r hr, if_pos ⟨hne, htrue⟩]

/-- C10 witness: the user-id validation theorem at a malformed id (stored
under the fallback) and at a well-formed mixed-case id (stored verbatim). -/
theorem save_records_user_id_witness :
    (∀ r ∈ saveRecords [kvSample] ["vid-1"] "not-a-uuid",
      r.user_id = test_user_id ∧ r.user_id ≠ "not-a-uuid")
    ∧ (∀ r ∈ saveRecords [kvSample] ["vid-1"] "12345678-90ab-cdef-ABCD-1234567890ab",
      r.user_id = "12345678-90ab-cdef-ABCD-1234567890ab") :=
  ⟨(save_records_user_id [kvSample] ["vid-1"] "not-a-uuid").1 (by decide),
   (save_records_user_id [kvSample] ["vid-1"] "12345678-90ab-cdef-ABCD-1234567890ab").2
     (by decide)⟩

/-! ### Selector lemmas -/

open List in
lemma sortByEff_perm (l : List KeywordVariant) : sortByEff l ~ l :=
  List.perm_insertionSort effGe l

lemma sortByEff_length (l : List KeywordVariant) : (sortByEff l).length = l.length :=
  (sortByEff_perm l).length_eq

lemma sortByEff_sorted (l : List KeywordVariant) : List.Sorted effGe (sortByEff l) :=
  List.sorted_insertionSort effGe l

lemma isShortTail_eq (a : KeywordVariant) :
    isShortTail a = (decide (wordCount a.keyword ≤ 2) && !isQuestionVariant a) := by
  simp only [isShortTail]
  exact Bool.and_comm _ _

lemma isMediumTail_eq (a : KeywordVariant) :
    isMediumTail a = ((decide (wordCount a.keyword ≤ 4) && !decide (wordCount a.keyword ≤ 2))
      && !isQuestionVariant a) := by
  simp only [isMediumTail]
  cases isQuestionVariant a <;> cases decide (wordCount a.keyword ≤ 2) <;>
    cases decide (wordCount a.keyword ≤ 4) <;> rfl

lemma isLongTail_eq (a : KeywordVariant) :
    isLongTail a = ((!decide (wordCount a.keyword ≤ 4) && !decide (wordCount a.keyword ≤ 2))
      && !isQuestionVariant a) := by
  simp only [isLongTail]
  cases isQuestionVariant a <;> cases decide (wordCount a.keyword ≤ 2) <;>
    cases decide (wordCount a.keyword ≤ 4) <;> rfl

/-- Every keyword falls in exactly one of the four segments, in the source's
first-match-wins order, so the four filtered segments repartition the list. -/
lemma segments_perm (l : List KeywordVariant) :
    List.Perm
      (l.filter isQuestionVariant ++ l.filter isShortTail ++ l.filter isMediumTail ++
        l.filter isLongTail) l := by
  have hS : l.filter isShortTail =
      (l.filter (fun x => !isQuestionVariant x)).filter
        (fun x => decide (wordCount x.keyword ≤ 2)) := by
    rw [List.filter_filter]
    exact List.filter_congr (fun a _ => isShortTail_eq a)
  have hM : l.filter isMediumTail =
      ((l.filter (fun x => !isQuestionVariant x)).filter
        (fun x => !decide (wordCount x.keyword ≤ 2))).filter
          (fun x => decide (wordCount x.keyword ≤ 4)) := by
    rw [List.filter_filter, List.filter_filter]
    exact List.filter_congr (fun a _ => isMediumTail_eq a)
  have hL : l.filter isLongTail =
      ((l.filter (fun x => !isQuestionVariant x)).filter
        (fun x => !decide (wordCount x.keyword ≤ 2))).filter
          (fun x => !decide (wordCount x.keyword ≤ 4)) := by
    rw [List.filter_filter, List.filter_filter]
    exact List.filter_congr (fun a _ => isLongTail_eq a)
  rw [List.append_assoc, List.append_assoc, hS, hM, hL]
  refine List.Perm.trans (List.Perm.append_left _ ?_) (List.filter_append_perm _ l)
  refine List.Perm.trans (List.Perm.append_left _ ?_) (List.filter_append_perm _ _)
  exact List.filter_append_perm _ _

lemma segment_lengths (kws : List KeywordVariant) :
    (questionBasedOf kws).length + (shortTailOf kws).length + (mediumTailOf kws).length
      + (longTailOf kws).length = kws.length := by
  have h := (segments_perm (sortByEff kws)).length_eq
  simp only [List.length_append] at h
  simp only [questionBasedOf, shortTailOf, mediumTailOf, longTailOf, sortByEff_length]
  have h2 : (sortByEff kws).length = kws.length := sortByEff_length kws
  omega

lemma take_coe_le (l : List KeywordVariant) (k : Nat) :
    ((l.take k : List KeywordVariant) : Multiset KeywordVariant) ≤ (l : Multiset KeywordVariant) :=
  Multiset.coe_le.mpr ((List.take_sublist k l).subperm)

/-- The segment coerced to a multiset splits as its quota prefix plus its
leftover suffix. -/
lemma take_drop_coe (l : List KeywordVariant) (k : Nat) :
    ((l.take k : List KeywordVariant) : Multiset KeywordVariant) + (l.drop k : List KeywordVariant)
      = (l : Multiset KeywordVariant) := by
  rw [Multiset.coe_add, Multiset.coe_eq_coe, List.take_append_drop]

/-- The quota prefixes plus any prefix of the leftover pool form a
sub-multiset of the input batch. -/
lemma tops_plus_take_subperm (keywords : List KeywordVariant) (k : Nat) :
    List.Subperm
      ((shortTailOf keywords).take 3 ++ (mediumTailOf keywords).take 5 ++
        (longTailOf keywords).take 2 ++ (questionBasedOf keywords).take 2 ++
        (remainingOf keywords).take k) keywords := by
  rw [← Multiset.coe_le]
  have hrem : ((remainingOf keywords : List KeywordVariant) : Multiset KeywordVariant) =
      (((shortTailOf keywords).drop 3 : List KeywordVariant) : Multiset KeywordVariant) +
        ((mediumTailOf keywords).drop 5 : List KeywordVariant) +
        ((longTailOf keywords).drop 2 : List KeywordVariant) +
        ((questionBasedOf keywords).drop 2 : List KeywordVariant) := by
    rw [Multiset.coe_add, Multiset.coe_add, Multiset.coe_add, Multiset.coe_eq_coe]
    exact sortByEff_perm _
  have hS : ((shortTailOf keywords : List KeywordVariant) : Multiset KeywordVariant) =
      ((sortByEff keywords).filter isShortTail : List KeywordVariant) :=
    Multiset.coe_eq_coe.mpr (sortByEff_perm _)
  have hM : ((mediumTailOf keywords : List KeywordVariant) : Multiset KeywordVariant) =
      ((sortByEff keywords).filter isMediumTail : List KeywordVariant) :=
    Multiset.coe_eq_coe.mpr (sortByEff_perm _)
  have hL : ((longTailOf keywords : List KeywordVariant) : Multiset KeywordVariant) =
      ((sortByEff keywords).filter isLongTail : List KeywordVariant) :=
    Multiset.coe_eq_coe.mpr (sortByEff_perm _)
  have hQ : ((questionBasedOf keywords : List KeywordVariant) : Multiset KeywordVariant) =
      ((sortByEff keywords).filter isQuestionVariant : List KeywordVariant) :=
    Multiset.coe_eq_coe.mpr (sortByEff_perm _)
  have hall : (((sortByEff keywords).filter isQuestionVariant : List KeywordVariant) :
        Multiset KeywordVariant) +
      ((sortByEff keywords).filter isShortTail : List KeywordVariant) +
      ((sortByEff keywords).filter isMediumTail : List KeywordVariant) +
      ((sortByEff keywords).filter isLongTail : List KeywordVariant) =
      (keywords : Multiset KeywordVariant) := by
    rw [Multiset.coe_add, Multiset.coe_add, Multiset.coe_add, Multiset.coe_eq_coe]
    exact (segments_perm (sortByEff keywords)).trans (sortByEff_perm keywords)
  simp only [← Multiset.coe_add]
  calc (((((shortTailOf keywords).take 3 : List KeywordVariant) : Multiset KeywordVariant) +
          ((mediumTailOf keywords).take 5 : List KeywordVariant) +
          ((longTailOf keywords).take 2 : List KeywordVariant) +
          ((questionBasedOf keywords).take 2 : List KeywordVariant)) +
          ((remainingOf keywords).take k : List KeywordVariant))
      ≤ ((((shortTailOf keywords).take 3 : List KeywordVariant) : Multiset KeywordVariant) +
          ((mediumTailOf keywords).take 5 : List KeywordVariant) +
          ((longTailOf keywords).take 2 : List KeywordVariant) +
          ((questionBasedOf keywords).take 2 : List KeywordVariant)) +
          (remainingOf keywords : List KeywordVariant) :=
        add_le_add_left (take_coe_le _ k) _
    _ = (keywords : Multiset KeywordVariant) := by
        rw [hrem, ← hall, ← hS, ← hM, ← hL, ← hQ,
          ← take_drop_coe (shortTailOf keywords) 3,
          ← take_drop_coe (mediumTailOf keywords) 5,
          ← take_drop_coe (longTailOf keywords) 2,
          ← take_drop_coe (questionBasedOf keywords) 2]
        abel

/-- The pre-sort selection is always a sub-multiset of the input batch. -/
lemma diverseTop_subperm (keywords : List KeywordVariant) :
    List.Subperm (diverseTopOf keywords) keywords := by
  rw [diverseTopOf]
  by_cases hlt : topCountOf keywords < 12
  · rw [if_pos hlt]
    exact tops_plus_take_subperm keywords _
  · rw [if_neg hlt]
    have h := tops_plus_take_subperm keywords 0
    rwa [List.take_zero, List.append_nil] at h

/-- The selector output is a sub-multiset of the input batch: it never picks
the same input candidate twice. -/
lemma rank_subperm (keywords : List KeywordVariant) :
    List.Subperm (rankAndPrioritize keywords) keywords := by
  rw [rankAndPrioritize]
  by_cases hemp : keywords.isEmpty
  · rw [if_pos hemp]
    exact List.nil_subperm
  · rw [if_neg hemp]
    exact ((List.take_sublist _ _).subperm.trans
      (sortByEff_perm (diverseTopOf keywords)).subperm).trans (diverseTop_subperm keywords)

/-- The selector output length is exactly min 12 (batch size). -/
lemma rank_length (keywords : List KeywordVariant) :
    (rankAndPrioritize keywords).length = min 12 keywords.length := by
  rw [rankAndPrioritize]
  by_cases hemp : keywords.isEmpty
  · rw [if_pos hemp, List.isEmpty_iff.mp hemp]
    rfl
  · rw [if_neg hemp]
    have hseg := segment_lengths keywords
    have htc : topCountOf keywords =
        min 3 (shortTailOf keywords).length + min 5 (mediumTailOf keywords).length +
          min 2 (longTailOf keywords).length + min 2 (questionBasedOf keywords).length := by
      simp [topCountOf, List.length_take]
    have hrem : (remainingOf keywords).length =
        ((shortTailOf keywords).length - 3) + ((mediumTailOf keywords).length - 5) +
          ((longTailOf keywords).length - 2) + ((questionBasedOf keywords).length - 2) := by
      simp [remainingOf, sortByEff_length, List.length_append, List.length_drop]
      omega
    have hdiv : (diverseTopOf keywords).length =
        if topCountOf keywords < 12 then
          topCountOf keywords + min (12 - topCountOf keywords) (remainingOf keywords).length
        else topCountOf keywords := by
      rw [diverseTopOf]
      by_cases hlt : topCountOf keywords < 12
      · rw [if_pos hlt, if_pos hlt]
        simp only [List.length_append, List.length_take, topCountOf]
      · rw [if_neg hlt, if_neg hlt]
        simp only [List.length_append, List.length_take, topCountOf]
    rw [List.length_take, sortByEff_length]
    by_cases hlt : topCountOf keywords < 12
    · rw [if_pos hlt] at hdiv
      omega
    · rw [if_neg hlt] at hdiv
      omega

/-- C2 counterexample: the selector does not deduplicate equal keyword
strings: a batch holding the same keyword twice is returned whole (its size
is under 12), so the output contains a duplicate keyword. -/
theorem selector_duplicate_keywords_counterexample :
    ((rankAndPrioritize [{ keyword := "shoes", source := "generated", efficiency_index := 0.5 },
        { keyword := "shoes", source := "generated", efficiency_index := 0.5 }]).map
      (·.keyword) = ["shoes", "shoes"])
    ∧ ¬ ((rankAndPrioritize [{ keyword := "shoes", source := "generated", efficiency_index := 0.5 },
        { keyword := "shoes", source := "generated", efficiency_index := 0.5 }]).map
      (·.keyword)).Nodup := by
  decide

/-- C2 (amended): the selector returns exactly min 12 (batch size) items,
sorted by efficiency_index descending, drawn from the input batch without
ever selecting one input candidate twice (so keywords are duplicate-free
whenever the input keywords are pairwise distinct), and the backfill taken
from the leftover pool dominates in efficiency every leftover it passes
over. -/
theorem rank_and_prioritize_spec (keywords : List KeywordVariant) :
    (rankAndPrioritize keywords).length = min 12 keywords.length
    ∧ List.Sorted effGe (rankAndPrioritize keywords)
    ∧ List.Subperm ((rankAndPrioritize keywords).map (·.keyword))
        (keywords.map (·.keyword))
    ∧ ((keywords.map (·.keyword)).Nodup →
        ((rankAndPrioritize keywords).map (·.keyword)).Nodup)
    ∧ ∀ a ∈ (remainingOf keywords).take (12 - topCountOf keywords),
        ∀ b ∈ (remainingOf keywords).drop (12 - topCountOf keywords),
          b.efficiency_index ≤ a.efficiency_index := by
  obtain ⟨l, hperm, hsub⟩ := rank_subperm keywords
  have hmap : List.Subperm ((rankAndPrioritize keywords).map (·.keyword))
      (keywords.map (·.keyword)) :=
    ⟨l.map (·.keyword), hperm.map _, hsub.map _⟩
  refine ⟨rank_length keywords, ?_, hmap, ?_, ?_⟩
  · rw [rankAndPrioritize]
    by_cases hemp : keywords.isEmpty
    · rw [if_pos hemp]
      exact List.sorted_nil
    · rw [if_neg hemp]
      exact List.Pairwise.sublist (List.take_sublist _ _)
        (sortByEff_sorted (diverseTopOf keywords))
  · intro hnd
    obtain ⟨l', hperm', hsub'⟩ := hmap
    exact hperm'.nodup_iff.mp (hnd.sublist hsub')
  · intro a ha b hb
    exact List.Sorted.rel_of_mem_take_of_mem_drop (sortByEff_sorted _) ha hb

/-- Two distinct-keyword candidates used by the selector witness. -/
def kvA : KeywordVariant :=
  { keyword := "alpha run", source := "generated", efficiency_index := 0.9 }

def kvB : KeywordVariant :=
  { keyword := "beta", source := "generated", efficiency_index := 0.4 }

/-- C2 witness: the selector theorem at a concrete two-candidate batch with
pairwise-distinct keywords, discharging the no-duplicates hypothesis. -/
theorem rank_and_prioritize_spec_witness :
    (rankAndPrioritize [kvA, kvB]).length = min 12 ([kvA, kvB] : List KeywordVariant).length
    ∧ ((rankAndPrioritize [kvA, kvB]).map (·.keyword)).Nodup :=
  ⟨(rank_and_prioritize_spec [kvA, kvB]).1,
   (rank_and_prioritize_spec [kvA, kvB]).2.2.2.1 (by decide)⟩

end KeywordVariants
